import Mathlib

/-!
Verification of CoralNet_Tools claims: a shallow embedding of the data model
and operations of the repository (dataset splitting, classifier backfill,
image download, page counting, segmentation training loop, class weights,
uncertainty threshold clamping, annotation export, rectangle resize, and
image filtering), with theorems settling each specification claim.
-/

namespace CoralNet

/-! ## Seeded dataset splitting

`sklearn.model_selection.train_test_split(l, test_size, random_state)` draws a
seeded pseudo-random permutation of the input, takes the first
`ceil(test_size * n)` elements as the test part and the rest as the train
part.  The permutation is modelled by a deterministic key-sort driven by a
linear congruential generator seeded from `random_state`; the claims proved
below (determinism, partition) hold for any such seeded permutation. -/

def lcg (s : Nat) : Nat := (1103515245 * s + 12345) % 2147483648

def shuffleKey (seed i : Nat) : Nat := lcg (lcg seed + i)

def shuffleSeeded (seed : Nat) {α : Type} (l : List α) : List α :=
  ((l.enum.map (fun p => (shuffleKey seed p.1, p.2))).insertionSort
      (fun a b => a.1 ≤ b.1)).map Prod.snd

theorem shuffleSeeded_perm (seed : Nat) {α : Type} (l : List α) :
    (shuffleSeeded seed l).Perm l := by
  unfold shuffleSeeded
  have h1 := List.perm_insertionSort (fun a b : Nat × α => a.1 ≤ b.1)
    (l.enum.map (fun p => (shuffleKey seed p.1, p.2)))
  refine (h1.map Prod.snd).trans ?_
  rw [List.map_map]
  have h2 : (Prod.snd ∘ fun p : Nat × α => (shuffleKey seed p.1, p.2)) = Prod.snd := rfl
  rw [h2, List.enum_map_snd]

/-- `train_test_split(l, test_size, random_state)` with
`test_size = num / den`: returns the (train, test) pair obtained by shuffling
with the seeded permutation and cutting off `ceil(test_size * |l|)` elements
(computed as `(num * |l| + den - 1) / den`) for the test part. -/
def train_test_split {α : Type} (l : List α) (num den : Nat) (seed : Nat) :
    List α × List α :=
  let shuffled := shuffleSeeded seed l
  let nTest := (num * l.length + (den - 1)) / den
  (shuffled.drop nTest, shuffled.take nTest)

theorem train_test_split_perm {α : Type} (l : List α) (num den seed : Nat) :
    ((train_test_split l num den seed).1 ++ (train_test_split l num den seed).2).Perm l := by
  unfold train_test_split
  refine (List.perm_append_comm.trans ?_)
  rw [List.take_append_drop]
  exact shuffleSeeded_perm seed l

/-- The train/validation/test split of the image names performed by both
`Classifier.py` and `Segmentation.py`: a 65/35 split with seed 42, then a
50/50 split of the 35% remainder with seed 42, yielding
(training, validation, testing). -/
def splitImageNames (names : List String) : List String × List String × List String :=
  let p1 := train_test_split names 35 100 42
  let p2 := train_test_split p1.2 1 2 42
  (p1.1, p2.1, p2.2)

theorem splitImageNames_perm (names : List String) :
    ((splitImageNames names).1 ++ (splitImageNames names).2.1 ++
      (splitImageNames names).2.2).Perm names := by
  unfold splitImageNames
  have h2 := train_test_split_perm (train_test_split names 35 100 42).2 1 2 42
  have h1 := train_test_split_perm names 35 100 42
  have hstep : ((train_test_split names 35 100 42).1 ++
        (train_test_split (train_test_split names 35 100 42).2 1 2 42).1 ++
        (train_test_split (train_test_split names 35 100 42).2 1 2 42).2).Perm
      ((train_test_split names 35 100 42).1 ++
        (train_test_split names 35 100 42).2) := by
    rw [List.append_assoc]
    exact List.Perm.append_left _ h2
  exact hstep.trans h1

/-- C1: the train/validation/test partitioning by unique image name is
deterministic, and the three resulting image-name sets partition the original
set: every name lies in exactly one of the three splits. -/
theorem c1_split_deterministic_partition (names : List String) (h : names.Nodup) :
    splitImageNames names = splitImageNames names ∧
    (∀ x, x ∈ names ↔ (x ∈ (splitImageNames names).1 ∨
        x ∈ (splitImageNames names).2.1 ∨ x ∈ (splitImageNames names).2.2)) ∧
    (∀ x, x ∈ (splitImageNames names).1 →
        x ∉ (splitImageNames names).2.1 ∧ x ∉ (splitImageNames names).2.2) ∧
    (∀ x, x ∈ (splitImageNames names).2.1 → x ∉ (splitImageNames names).2.2) := by
  have hp := splitImageNames_perm names
  have hnd : ((splitImageNames names).1 ++ (splitImageNames names).2.1 ++
      (splitImageNames names).2.2).Nodup := hp.nodup_iff.mpr h
  rw [List.append_assoc, List.nodup_append] at hnd
  obtain ⟨h1, hnd2, hdisj1⟩ := hnd
  rw [List.nodup_append] at hnd2
  obtain ⟨h2, h3, hdisj2⟩ := hnd2
  refine ⟨rfl, ?_, ?_, ?_⟩
  · intro x
    have := hp.mem_iff (a := x)
    rw [List.append_assoc, List.mem_append, List.mem_append] at this
    exact this.symm
  · intro x hx
    constructor
    · intro hx2
      exact hdisj1 hx (List.mem_append.mpr (Or.inl hx2))
    · intro hx2
      exact hdisj1 hx (List.mem_append.mpr (Or.inr hx2))
  · intro x hx hx2
    exact hdisj2 hx hx2

/-- Witness for C1 at a concrete list of three unique image names. -/
theorem c1_witness :
    (["a.png", "b.png", "c.png"] : List String).Nodup ∧
    (splitImageNames ["a.png", "b.png", "c.png"] =
        splitImageNames ["a.png", "b.png", "c.png"] ∧
    (∀ x, x ∈ (["a.png", "b.png", "c.png"] : List String) ↔
        (x ∈ (splitImageNames ["a.png", "b.png", "c.png"]).1 ∨
         x ∈ (splitImageNames ["a.png", "b.png", "c.png"]).2.1 ∨
         x ∈ (splitImageNames ["a.png", "b.png", "c.png"]).2.2)) ∧
    (∀ x, x ∈ (splitImageNames ["a.png", "b.png", "c.png"]).1 →
        x ∉ (splitImageNames ["a.png", "b.png", "c.png"]).2.1 ∧
        x ∉ (splitImageNames ["a.png", "b.png", "c.png"]).2.2) ∧
    (∀ x, x ∈ (splitImageNames ["a.png", "b.png", "c.png"]).2.1 →
        x ∉ (splitImageNames ["a.png", "b.png", "c.png"]).2.2)) :=
  ⟨by decide, c1_split_deterministic_partition ["a.png", "b.png", "c.png"] (by decide)⟩

/-! ## Classifier patch table and class backfill (`Classifier.py`) -/

/-- A patch table row: (image name, label).  Only these two columns matter to
the splitting and backfill logic. -/
abbrev Table := List (String × String)

/-- `pandas.unique`: distinct values in first-occurrence order. -/
def uniqueKeepFirst (l : List String) : List String := l.reverse.dedup.reverse

theorem mem_uniqueKeepFirst {x : String} {l : List String} :
    x ∈ uniqueKeepFirst l ↔ x ∈ l := by
  simp [uniqueKeepFirst]

/-- `df['Label'].unique()` for a patch table. -/
def uniqueLabels (t : Table) : List String := uniqueKeepFirst (t.map Prod.snd)

/-- The sampling loop of `train_classifier`: one row of every label present
in the full patch table (`patches_df[patches_df['Label'] == label].sample(n=1)`,
modelled as the first matching row). -/
def sampleOfEach (patches : Table) : Table :=
  (uniqueLabels patches).filterMap (fun l => patches.find? (fun r => r.2 == l))

/-- The class backfill block of `train_classifier`: when the number of
distinct labels in the training split differs from the number in the
validation split, one sample of each label of the full table is prepended to
all three splits.  The boolean records whether the backfill was performed. -/
def backfillStep (patches train valid test : Table) :
    (Table × Table × Table) × Bool :=
  if (uniqueLabels train).length ≠ (uniqueLabels valid).length then
    ((sampleOfEach patches ++ train, sampleOfEach patches ++ valid,
      sampleOfEach patches ++ test), true)
  else ((train, valid, test), false)

/-- The dataframe splitting of `train_classifier`: unique image names are
split 65/35/… with seed 42 and each split keeps the rows whose image name
fell into it. -/
def classifierSplit (patches : Table) : Table × Table × Table :=
  let names := uniqueKeepFirst (patches.map Prod.fst)
  let s := splitImageNames names
  (patches.filter (fun r => decide (r.1 ∈ s.1)),
   patches.filter (fun r => decide (r.1 ∈ s.2.1)),
   patches.filter (fun r => decide (r.1 ∈ s.2.2)))

theorem mem_uniqueLabels {c : String} {t : Table} :
    c ∈ uniqueLabels t ↔ ∃ r ∈ t, r.2 = c := by
  simp [uniqueLabels, mem_uniqueKeepFirst]

theorem sampleOfEach_covers {c : String} {patches : Table}
    (h : c ∈ uniqueLabels patches) : ∃ r ∈ sampleOfEach patches, r.2 = c := by
  obtain ⟨r, hr, hrc⟩ := mem_uniqueLabels.mp h
  have hex : ∃ x ∈ patches, (fun q : String × String => q.2 == c) x := by
    exact ⟨r, hr, by simp [hrc]⟩
  obtain ⟨r', hr'⟩ := Option.isSome_iff_exists.mp (List.find?_isSome.mpr hex)
  refine ⟨r', ?_, ?_⟩
  · exact List.mem_filterMap.mpr ⟨c, h, hr'⟩
  · have := List.find?_some hr'
    simpa using this

/-- C2 counterexample: on this concrete patch table the backfill is performed
(the training split has 1 distinct class, the validation split 2), although
every class present in the training split is present in the validation
split — so the backfill is not performed "if and only if some class present
in the training split is absent from the validation split". -/
theorem c2_counterexample :
    (backfillStep [("i1", "A"), ("i3", "A"), ("i3", "B"), ("i2", "A"), ("i4", "A")]
      (classifierSplit [("i1", "A"), ("i3", "A"), ("i3", "B"), ("i2", "A"), ("i4", "A")]).1
      (classifierSplit [("i1", "A"), ("i3", "A"), ("i3", "B"), ("i2", "A"), ("i4", "A")]).2.1
      (classifierSplit [("i1", "A"), ("i3", "A"), ("i3", "B"), ("i2", "A"), ("i4", "A")]).2.2).2
        = true ∧
    ∀ c ∈ uniqueLabels (classifierSplit
        [("i1", "A"), ("i3", "A"), ("i3", "B"), ("i2", "A"), ("i4", "A")]).1,
      c ∈ uniqueLabels (classifierSplit
        [("i1", "A"), ("i3", "A"), ("i3", "B"), ("i2", "A"), ("i4", "A")]).2.1 := by
  decide

/-- C2 (amended): the backfill is performed if and only if the number of
distinct classes in the training split differs from the number in the
validation split; when it is performed, afterwards every class of the full
table is present in all three splits. -/
theorem c2_backfill_amended (patches train valid test : Table) :
    ((backfillStep patches train valid test).2 = true ↔
      (uniqueLabels train).length ≠ (uniqueLabels valid).length) ∧
    ((backfillStep patches train valid test).2 = true →
      ∀ c ∈ uniqueLabels patches,
        c ∈ uniqueLabels (backfillStep patches train valid test).1.1 ∧
        c ∈ uniqueLabels (backfillStep patches train valid test).1.2.1 ∧
        c ∈ uniqueLabels (backfillStep patches train valid test).1.2.2) := by
  unfold backfillStep
  by_cases h : (uniqueLabels train).length ≠ (uniqueLabels valid).length
  · rw [if_pos h]
    refine ⟨by simpa using h, ?_⟩
    intro _ c hc
    obtain ⟨r, hr, hrc⟩ := sampleOfEach_covers hc
    refine ⟨?_, ?_, ?_⟩ <;>
      exact mem_uniqueLabels.mpr ⟨r, List.mem_append.mpr (Or.inl hr), hrc⟩
  · rw [if_neg h]
    exact ⟨by simpa using h, by intro hfalse; simp at hfalse⟩

/-- Witness for C2's amended theorem at the counterexample table: the
backfill fires there, and afterwards both classes are present everywhere. -/
theorem c2_witness :
    ((backfillStep [("i1", "A"), ("i2", "A"), ("i2", "B")]
        [("i1", "A")] [("i2", "A"), ("i2", "B")] []).2 = true ↔
      (uniqueLabels [("i1", "A")]).length ≠
        (uniqueLabels [("i2", "A"), ("i2", "B")]).length) ∧
    (∀ c ∈ uniqueLabels [("i1", "A"), ("i2", "A"), ("i2", "B")],
      c ∈ uniqueLabels (backfillStep [("i1", "A"), ("i2", "A"), ("i2", "B")]
        [("i1", "A")] [("i2", "A"), ("i2", "B")] []).1.1 ∧
      c ∈ uniqueLabels (backfillStep [("i1", "A"), ("i2", "A"), ("i2", "B")]
        [("i1", "A")] [("i2", "A"), ("i2", "B")] []).1.2.1 ∧
      c ∈ uniqueLabels (backfillStep [("i1", "A"), ("i2", "A"), ("i2", "B")]
        [("i1", "A")] [("i2", "A"), ("i2", "B")] []).1.2.2) :=
  ⟨(c2_backfill_amended [("i1", "A"), ("i2", "A"), ("i2", "B")]
      [("i1", "A")] [("i2", "A"), ("i2", "B")] []).1,
   (c2_backfill_amended [("i1", "A"), ("i2", "A"), ("i2", "B")]
      [("i1", "A")] [("i2", "A"), ("i2", "B")] []).2 (by decide)⟩

/-! ## Image download (`CoralNet_Download.py`) -/

structure NetResponse where
  status_code : Nat
  content : String

/-- `download_image(image_url, image_path)` over an explicit filesystem (the
list of existing paths) and network (URL → response).  Returns the updated
filesystem, the `(path, success)` pair the function returns, and the number
of HTTP GET requests issued during the call. -/
def download_image (net : String → NetResponse) (fs : List String)
    (image_url image_path : String) : List String × (String × Bool) × Nat :=
  if image_path ∈ fs then (fs, (image_path, true), 0)
  else
    let response := net image_url
    if response.status_code = 200 then (image_path :: fs, (image_path, true), 1)
    else (fs, (image_path, false), 1)

/-- C3 counterexample: when the server answers 404 and the file does not
exist, the first call performs network I/O but does not create the file, so
the second call with the same arguments also issues a request and returns
success `false` — refuting "calling download_image twice in sequence performs
network I/O only on the first call, and the second call returns the same path
with success true". -/
theorem c3_counterexample :
    (download_image (fun _ => ⟨404, ""⟩)
        (download_image (fun _ => ⟨404, ""⟩) [] "u" "p").1 "u" "p").2.2 = 1 ∧
    (download_image (fun _ => ⟨404, ""⟩)
        (download_image (fun _ => ⟨404, ""⟩) [] "u" "p").1 "u" "p").2.1.2 = false := by
  constructor <;> rfl

/-- C3 (amended): if the destination file already exists, `download_image`
returns `(path, true)` without issuing any HTTP request and leaves the
filesystem unchanged; and whenever the first of two sequential calls with the
same arguments returns success `true`, the second call issues no request and
returns the same path with success `true`. -/
theorem c3_download_amended (net : String → NetResponse) (fs : List String)
    (url path : String) :
    (path ∈ fs → download_image net fs url path = (fs, (path, true), 0)) ∧
    ((download_image net fs url path).2.1.2 = true →
      download_image net (download_image net fs url path).1 url path =
        ((download_image net fs url path).1, (path, true), 0)) := by
  constructor
  · intro h
    simp [download_image, h]
  · intro hsucc
    by_cases h : path ∈ fs
    · simp [download_image, h]
    · by_cases h200 : (net url).status_code = 200
      · have hfs : (download_image net fs url path).1 = path :: fs := by
          simp [download_image, h, h200]
        rw [hfs]
        simp [download_image]
      · exfalso
        have : (download_image net fs url path).2.1.2 = false := by
          simp [download_image, h, h200]
        rw [this] at hsucc
        exact Bool.false_ne_true hsucc

/-- Witness for C3's amended theorem: server answers 200, file absent; the
first call succeeds and the second call is a request-free success. -/
theorem c3_witness :
    (download_image (fun _ => ⟨200, "bytes"⟩) [] "u" "p").2.1.2 = true ∧
    download_image (fun _ => ⟨200, "bytes"⟩)
        (download_image (fun _ => ⟨200, "bytes"⟩) [] "u" "p").1 "u" "p" =
      ((download_image (fun _ => ⟨200, "bytes"⟩) [] "u" "p").1, ("p", true), 0) :=
  ⟨rfl, (c3_download_amended (fun _ => ⟨200, "bytes"⟩) [] "u" "p").2 rfl⟩

/-! ## Page counting in `get_images` (`CoralNet_Download.py`) -/

/-- The page count computed by `get_images` from the total-item count read
off the page indicator: `int(...) // 20 + 1`. -/
def num_pages (total : Nat) : Nat := total / 20 + 1

/-- C4 counterexample: for a total of 20 items the code computes 2 pages
while `ceil(20 / 20) = 1`, refuting "the computed number of pages to crawl
equals ceil(n / 20)". -/
theorem c4_counterexample : num_pages 20 = 2 ∧ (20 + 19) / 20 = 1 := by decide

/-- C4 (amended): the computed number of pages equals `⌊n / 20⌋ + 1`, which
coincides with `ceil(n / 20)` exactly when `n` is not a multiple of 20 (in
particular it exceeds it by one on exact multiples, including `n = 0`). -/
theorem c4_num_pages_amended (n : Nat) :
    num_pages n = n / 20 + 1 ∧ (num_pages n = (n + 19) / 20 ↔ ¬ (20 ∣ n)) := by
  refine ⟨rfl, ?_⟩
  unfold num_pages
  omega

/-! ## Segmentation training loop (`Segmentation.py`) -/

/-- The mutable state of the segmentation training loop: best validation
loss so far (`float('inf')` initially, modelled as `none`), its epoch, the
stagnation counter `since_best`, the optimizer learning rate, and whether the
early-exit `break` has fired. -/
structure SegState where
  bestScore : Option ℚ
  bestEpoch : Nat
  sinceBest : Nat
  lr : ℚ
  stopped : Bool

/-- `valid_loss < best_score` where `best_score` starts at infinity. -/
def improvedB (best : Option ℚ) (validLoss : ℚ) : Bool :=
  match best with
  | none => true
  | some b => decide (validLoss < b)

/-- The best-score update of the epoch body: reset `since_best` and record
the new best on improvement, otherwise increment `since_best`. -/
def updateBest (s : SegState) (eIdx : Nat) (validLoss : ℚ) : SegState :=
  if improvedB s.bestScore validLoss then
    { s with bestScore := some validLoss, bestEpoch := eIdx, sinceBest := 0 }
  else
    { s with sinceBest := s.sinceBest + 1 }

/-- `if since_best >= 3 and train_loss <= valid_loss: lr *= 0.5`. -/
def maybeHalveLR (s : SegState) (trainLoss validLoss : ℚ) : SegState :=
  if 3 ≤ s.sinceBest ∧ trainLoss ≤ validLoss then
    { s with lr := s.lr * (1 / 2) }
  else s

/-- `if since_best >= 7 and train_loss < valid_loss: break`. -/
def maybeStop (s : SegState) (trainLoss validLoss : ℚ) : SegState :=
  if 7 ≤ s.sinceBest ∧ trainLoss < validLoss then { s with stopped := true } else s

/-- One iteration of the training loop of `seg` for the epoch
`(eIdx, trainLoss, validLoss)`; a stopped state is never processed further
(the `break` exited the loop). -/
def segEpochStep (s : SegState) (eIdx : Nat) (trainLoss validLoss : ℚ) : SegState :=
  if s.stopped then s
  else maybeStop (maybeHalveLR (updateBest s eIdx validLoss) trainLoss validLoss)
    trainLoss validLoss

/-- The whole training loop over a schedule of epochs. -/
def segRun (s : SegState) (epochs : List (Nat × ℚ × ℚ)) : SegState :=
  epochs.foldl (fun st p => segEpochStep st p.1 p.2.1 p.2.2) s

theorem segEpochStep_stopped (s : SegState) (e : Nat) (tl vl : ℚ)
    (h : s.stopped = true) : segEpochStep s e tl vl = s := by
  simp [segEpochStep, h]

theorem updateBest_sinceBest (s : SegState) (e : Nat) (vl : ℚ) :
    (updateBest s e vl).sinceBest =
      if improvedB s.bestScore vl then 0 else s.sinceBest + 1 := by
  unfold updateBest
  split <;> simp_all

theorem updateBest_lr (s : SegState) (e : Nat) (vl : ℚ) :
    (updateBest s e vl).lr = s.lr := by
  unfold updateBest
  split <;> rfl

theorem updateBest_stopped (s : SegState) (e : Nat) (vl : ℚ) :
    (updateBest s e vl).stopped = s.stopped := by
  unfold updateBest
  split <;> rfl

theorem maybeHalveLR_sinceBest (s : SegState) (tl vl : ℚ) :
    (maybeHalveLR s tl vl).sinceBest = s.sinceBest := by
  unfold maybeHalveLR
  split <;> rfl

theorem maybeHalveLR_stopped (s : SegState) (tl vl : ℚ) :
    (maybeHalveLR s tl vl).stopped = s.stopped := by
  unfold maybeHalveLR
  split <;> rfl

theorem maybeHalveLR_lr (s : SegState) (tl vl : ℚ) :
    (maybeHalveLR s tl vl).lr =
      if 3 ≤ s.sinceBest ∧ tl ≤ vl then s.lr * (1 / 2) else s.lr := by
  unfold maybeHalveLR
  split <;> simp_all

theorem maybeStop_sinceBest (s : SegState) (tl vl : ℚ) :
    (maybeStop s tl vl).sinceBest = s.sinceBest := by
  unfold maybeStop
  split <;> rfl

theorem maybeStop_lr (s : SegState) (tl vl : ℚ) :
    (maybeStop s tl vl).lr = s.lr := by
  unfold maybeStop
  split <;> rfl

theorem maybeStop_stopped_iff (s : SegState) (tl vl : ℚ) (h : s.stopped = false) :
    ((maybeStop s tl vl).stopped = true ↔ (7 ≤ s.sinceBest ∧ tl < vl)) := by
  unfold maybeStop
  split <;> rename_i hc
  · simpa using hc
  · rw [h]
    simpa using hc

/-- C5: in the segmentation epoch loop the stagnation counter resets to 0 on
improvement and increments by 1 otherwise; whenever the (updated) counter is
at least 3 and training loss ≤ validation loss the learning rate is halved,
otherwise it is unchanged; the loop exits exactly after an epoch where the
counter is at least 7 and training loss < validation loss; and a stopped
state processes no further epochs. -/
theorem c5_seg_training_loop (s : SegState) (e : Nat) (tl vl : ℚ)
    (h : s.stopped = false) :
    ((segEpochStep s e tl vl).sinceBest =
      if improvedB s.bestScore vl then 0 else s.sinceBest + 1) ∧
    ((segEpochStep s e tl vl).lr =
      if 3 ≤ (segEpochStep s e tl vl).sinceBest ∧ tl ≤ vl then s.lr * (1 / 2)
      else s.lr) ∧
    ((segEpochStep s e tl vl).stopped = true ↔
      (7 ≤ (segEpochStep s e tl vl).sinceBest ∧ tl < vl)) ∧
    (∀ epochs (st : SegState), st.stopped = true → segRun st epochs = st) := by
  have hstep : segEpochStep s e tl vl =
      maybeStop (maybeHalveLR (updateBest s e vl) tl vl) tl vl := by
    simp [segEpochStep, h]
  have hsince : (segEpochStep s e tl vl).sinceBest =
      (updateBest s e vl).sinceBest := by
    rw [hstep, maybeStop_sinceBest, maybeHalveLR_sinceBest]
  refine ⟨?_, ?_, ?_, ?_⟩
  · rw [hsince, updateBest_sinceBest]
  · rw [hstep, maybeStop_lr, maybeHalveLR_lr, updateBest_lr,
      maybeStop_sinceBest, maybeHalveLR_sinceBest]
  · rw [hstep]
    rw [maybeStop_stopped_iff _ tl vl
      (by rw [maybeHalveLR_stopped, updateBest_stopped]; exact h)]
    rw [maybeHalveLR_sinceBest, maybeStop_sinceBest, maybeHalveLR_sinceBest]
  · intro epochs
    induction epochs with
    | nil => intro st hst; rfl
    | cons p rest ih =>
        intro st hst
        unfold segRun
        rw [List.foldl_cons, segEpochStep_stopped st p.1 p.2.1 p.2.2 hst]
        exact ih st hst

/-- Witness for C5 at a concrete non-stopped state and epoch losses. -/
theorem c5_witness :
    ((segEpochStep ⟨some 2, 1, 6, 1, false⟩ 9 5 7).sinceBest =
      if improvedB (some 2) 7 then 0 else 6 + 1) ∧
    ((segEpochStep ⟨some 2, 1, 6, 1, false⟩ 9 5 7).lr =
      if 3 ≤ (segEpochStep ⟨some 2, 1, 6, 1, false⟩ 9 5 7).sinceBest ∧ (5 : ℚ) ≤ 7
      then 1 * (1 / 2) else 1) ∧
    ((segEpochStep ⟨some 2, 1, 6, 1, false⟩ 9 5 7).stopped = true ↔
      (7 ≤ (segEpochStep ⟨some 2, 1, 6, 1, false⟩ 9 5 7).sinceBest ∧ (5 : ℚ) < 7)) ∧
    (∀ epochs (st : SegState), st.stopped = true → segRun st epochs = st) :=
  c5_seg_training_loop ⟨some 2, 1, 6, 1, false⟩ 9 5 7 rfl

/-! ## Class weights (`compute_class_weights` in `Classifier.py`) -/

/-- `compute_class_weights(df, mu)`: the weight of a class is
`log(mu * total / count)` when that score exceeds 1.0, else 1.0.  The table
is abstracted to its list of label occurrences. -/
noncomputable def compute_class_weights (labels : List String) (mu : ℝ) :
    String → ℝ := fun key =>
  let total : ℝ := labels.length
  let score := Real.log (mu * total / (labels.count key : ℝ))
  if score > 1 then score else 1

/-- The `class_weight = {c: 1.0 for c in range(num_classes)}` branch taken
when `weighted_loss` is disabled. -/
def disabledClassWeights (numClasses : Nat) : Nat → ℝ := fun _ => 1

/-- The spec's concrete two-class table: 100 rows of class A, 900 of B. -/
def twoClassTable : List String := List.replicate 100 "A" ++ List.replicate 900 "B"

theorem count_twoClassTable_A : twoClassTable.count "A" = 100 := by
  unfold twoClassTable
  rw [List.count_append, List.count_replicate, List.count_replicate]
  simp

theorem count_twoClassTable_B : twoClassTable.count "B" = 900 := by
  unfold twoClassTable
  rw [List.count_append, List.count_replicate, List.count_replicate]
  simp

theorem length_twoClassTable : twoClassTable.length = 1000 := by
  unfold twoClassTable
  rw [List.length_append, List.length_replicate, List.length_replicate]

/-- C6: every class's weight is `max(1, ln(0.15 * total / count))`; on the
two-class table with counts A:100, B:900 both weights are exactly 1 (the
floor-at-1 clamp engages since `ln 1.5 ≤ 1` and `ln(1/6) ≤ 1`); and with
weighted loss disabled every class receives weight 1. -/
theorem c6_class_weights (labels : List String) (c : String) (h : c ∈ labels) :
    compute_class_weights labels (0.15) c =
      max 1 (Real.log ((0.15) * labels.length / (labels.count c : ℝ))) ∧
    compute_class_weights twoClassTable (0.15) "A" = 1 ∧
    compute_class_weights twoClassTable (0.15) "B" = 1 ∧
    ∀ n k, disabledClassWeights n k = 1 := by
  have hgen : ∀ (ls : List String) (key : String),
      compute_class_weights ls (0.15) key =
        max 1 (Real.log ((0.15) * ls.length / (ls.count key : ℝ))) := by
    intro ls key
    unfold compute_class_weights
    rcases le_or_lt (Real.log ((0.15) * ls.length / (ls.count key : ℝ))) 1 with hle | hlt
    · rw [if_neg (not_lt.mpr hle), max_eq_left hle]
    · rw [if_pos hlt, max_eq_right hlt.le]
  have hA : compute_class_weights twoClassTable (0.15) "A" = 1 := by
    rw [hgen]
    have harg : (0.15 : ℝ) * (twoClassTable.length : ℝ) /
        ((twoClassTable.count "A" : ℕ) : ℝ) = 3 / 2 := by
      rw [length_twoClassTable, count_twoClassTable_A]
      norm_num
    rw [harg]
    have hlog : Real.log (3 / 2) ≤ 1 := by
      rw [Real.log_le_iff_le_exp (by norm_num)]
      have he := Real.exp_one_gt_d9
      linarith
    exact max_eq_left hlog
  have hB : compute_class_weights twoClassTable (0.15) "B" = 1 := by
    rw [hgen]
    have harg : (0.15 : ℝ) * (twoClassTable.length : ℝ) /
        ((twoClassTable.count "B" : ℕ) : ℝ) = 1 / 6 := by
      rw [length_twoClassTable, count_twoClassTable_B]
      norm_num
    rw [harg]
    have hlog : Real.log (1 / 6) ≤ 1 := by
      have := Real.log_neg (x := 1 / 6) (by norm_num) (by norm_num)
      linarith
    exact max_eq_left hlog
  exact ⟨hgen labels c, hA, hB, fun _ _ => rfl⟩

/-- Witness for C6 at the concrete two-class table and class A. -/
theorem c6_witness :
    ("A" ∈ twoClassTable) ∧
    (compute_class_weights twoClassTable (0.15) "A" =
      max 1 (Real.log ((0.15) * twoClassTable.length /
        (twoClassTable.count "A" : ℝ))) ∧
    compute_class_weights twoClassTable (0.15) "A" = 1 ∧
    compute_class_weights twoClassTable (0.15) "B" = 1 ∧
    ∀ n k, disabledClassWeights n k = 1) :=
  ⟨List.mem_append.mpr (Or.inl (List.mem_replicate.mpr ⟨by simp, rfl⟩)),
   c6_class_weights twoClassTable "A"
     (List.mem_append.mpr (Or.inl (List.mem_replicate.mpr ⟨by simp, rfl⟩)))⟩

/-! ## Uncertainty threshold clamp (`QtDeployModel.py`) -/

/-- `get_uncertainty_threshold`: the configured threshold, limited to a
maximum of 0.10. -/
def get_uncertainty_threshold (u : ℚ) : ℚ := if u < 1 / 10 then u else 1 / 10

/-- The threshold actually handed to the detector when `predict` loads a new
model: `load_new_model(model_name, self.get_uncertainty_threshold())` passes
the clamped value as both box and text threshold. -/
def loadedModelThreshold (u : ℚ) : ℚ := get_uncertainty_threshold u

/-- C7: for every configured threshold in [0, 1], the value passed to the
detector at model-load time equals the configured value when it is below
0.10 and equals 0.10 otherwise. -/
theorem c7_uncertainty_clamp (u : ℚ) (h0 : 0 ≤ u) (h1 : u ≤ 1) :
    (u < 1 / 10 → loadedModelThreshold u = u) ∧
    (¬ u < 1 / 10 → loadedModelThreshold u = 1 / 10) := by
  constructor
  · intro h
    unfold loadedModelThreshold get_uncertainty_threshold
    rw [if_pos h]
  · intro h
    unfold loadedModelThreshold get_uncertainty_threshold
    rw [if_neg h]

/-- Witness for C7 at the configured default threshold value 1. -/
theorem c7_witness :
    ((1 : ℚ) < 1 / 10 → loadedModelThreshold 1 = 1) ∧
    (¬ (1 : ℚ) < 1 / 10 → loadedModelThreshold 1 = 1 / 10) :=
  c7_uncertainty_clamp 1 (by norm_num) (by norm_num)

/-! ## CoralNet annotation export (`QtExportCoralNetAnnotations.py`) -/

/-- The observable outcome of one `export_annotations` run: which dialogs
were shown, whether the busy cursor was restored and the progress dialog
stopped and closed (the `finally` block), and what reached the destination
file (`none` = nothing written). -/
structure ExportOutcome where
  warningShown : Option String
  infoShown : Bool
  cursorRestored : Bool
  progressStopped : Bool
  progressClosed : Bool
  fileContents : Option (List String)

/-- `export_annotations` after a destination path was chosen: serialize every
annotation with `to_coralnet()` (each is either a row or a raised exception
text), then write the CSV.  `writeError` is an exception raised by
`write_csv` itself, in which case `leftoverWrite` is whatever the aborted
write left at the destination.  The `finally` block runs in every branch. -/
def export_annotations (anns : List (Except String String))
    (writeError : Option String) (leftoverWrite : Option (List String)) :
    ExportOutcome :=
  match anns.mapM id with
  | Except.error e =>
      { warningShown := some ("An error occurred while exporting annotations: " ++ e),
        infoShown := false, cursorRestored := true, progressStopped := true,
        progressClosed := true, fileContents := none }
  | Except.ok rows =>
      match writeError with
      | some e =>
          { warningShown := some ("An error occurred while exporting annotations: " ++ e),
            infoShown := false, cursorRestored := true, progressStopped := true,
            progressClosed := true, fileContents := leftoverWrite }
      | none =>
          { warningShown := none, infoShown := true, cursorRestored := true,
            progressStopped := true, progressClosed := true,
            fileContents := some rows }

/-- C8: in every outcome of the export the busy cursor is restored and the
progress dialog is stopped and closed; any exception during serialization or
the CSV write produces a warning dialog carrying the exception text; and a
serialization exception leaves the destination file unwritten. -/
theorem c8_export_failure_safety (anns : List (Except String String))
    (writeError : Option String) (leftoverWrite : Option (List String)) :
    (export_annotations anns writeError leftoverWrite).cursorRestored = true ∧
    (export_annotations anns writeError leftoverWrite).progressStopped = true ∧
    (export_annotations anns writeError leftoverWrite).progressClosed = true ∧
    (∀ e, anns.mapM id = Except.error e →
      (export_annotations anns writeError leftoverWrite).warningShown =
          some ("An error occurred while exporting annotations: " ++ e) ∧
      (export_annotations anns writeError leftoverWrite).fileContents = none) ∧
    (∀ rows e, anns.mapM id = Except.ok rows → writeError = some e →
      (export_annotations anns writeError leftoverWrite).warningShown =
        some ("An error occurred while exporting annotations: " ++ e)) := by
  unfold export_annotations
  cases hm : anns.mapM id with
  | error e =>
      refine ⟨rfl, rfl, rfl, ?_, ?_⟩
      · intro e' he'
        cases he'
        exact ⟨rfl, rfl⟩
      · intro rows e' hrows
        cases hrows
  | ok rows =>
      cases writeError with
      | some e =>
          refine ⟨rfl, rfl, rfl, ?_, ?_⟩
          · intro e' he'
            cases he'
          · intro rows' e' hrows' he'
            cases hrows'
            cases he'
            exact rfl
      | none =>
          refine ⟨rfl, rfl, rfl, ?_, ?_⟩
          · intro e' he'
            cases he'
          · intro rows' e' _ he'
            cases he'

/-- Witness for C8: one annotation whose serialization raises. -/
theorem c8_witness :
    (export_annotations [Except.error "boom"] none none).cursorRestored = true ∧
    (export_annotations [Except.error "boom"] none none).progressStopped = true ∧
    (export_annotations [Except.error "boom"] none none).progressClosed = true ∧
    (export_annotations [Except.error "boom"] none none).warningShown =
      some ("An error occurred while exporting annotations: " ++ "boom") ∧
    (export_annotations [Except.error "boom"] none none).fileContents = none :=
  ⟨(c8_export_failure_safety [Except.error "boom"] none none).1,
   (c8_export_failure_safety [Except.error "boom"] none none).2.1,
   (c8_export_failure_safety [Except.error "boom"] none none).2.2.1,
   ((c8_export_failure_safety [Except.error "boom"] none none).2.2.2.1 "boom" rfl).1,
   ((c8_export_failure_safety [Except.error "boom"] none none).2.2.2.1 "boom" rfl).2⟩

/-! ## Rectangle resize (`QtSelectTool.py`) -/

structure QPointF where
  x : ℚ
  y : ℚ

/-- The fields of a rectangle annotation touched by the resize tool. -/
structure Rectangle where
  top_left : QPointF
  bottom_right : QPointF
  centroid : QPointF
  cropped_bbox : ℚ × ℚ × ℚ × ℚ

/-- Modelled from the spec: `RectangleAnnotation.calculate_centroid` is not
under src/ (only its caller in `QtSelectTool.py` is); the spec describes the
centroid as the rectangle's center point. -/
def calculate_centroid (tl br : QPointF) : QPointF :=
  ⟨(tl.x + br.x) / 2, (tl.y + br.y) / 2⟩

/-- Modelled from the spec: `RectangleAnnotation.set_cropped_bbox` is not
under src/; the spec describes the cropped bounding box as the axis-aligned
box spanned by the two corners. -/
def set_cropped_bbox (tl br : QPointF) : ℚ × ℚ × ℚ × ℚ :=
  (tl.x, tl.y, br.x, br.y)

/-- `SelectTool.resize_annotation` for rectangle annotations: move the
dragged corner's coordinate(s) by the incremental delta, then recompute
centroid and cropped bbox (`calculate_centroid`, `set_cropped_bbox`). -/
def resize_annotation (handle : String) (a : Rectangle) (delta : QPointF) :
    Rectangle :=
  let a1 :=
    if handle = "top_left" then
      { a with top_left := ⟨a.top_left.x + delta.x, a.top_left.y + delta.y⟩ }
    else if handle = "top_right" then
      { a with top_left := ⟨a.top_left.x, a.top_left.y + delta.y⟩,
               bottom_right := ⟨a.bottom_right.x + delta.x, a.bottom_right.y⟩ }
    else if handle = "bottom_left" then
      { a with top_left := ⟨a.top_left.x + delta.x, a.top_left.y⟩,
               bottom_right := ⟨a.bottom_right.x, a.bottom_right.y + delta.y⟩ }
    else if handle = "bottom_right" then
      { a with bottom_right := ⟨a.bottom_right.x + delta.x,
                                a.bottom_right.y + delta.y⟩ }
    else a
  { a1 with centroid := calculate_centroid a1.top_left a1.bottom_right,
            cropped_bbox := set_cropped_bbox a1.top_left a1.bottom_right }

/-- C9: dragging the bottom-right handle moves `bottom_right` by exactly
(dx, dy) and leaves `top_left` unchanged; dragging the top-right handle moves
`top_left.y` by dy and `bottom_right.x` by dx while leaving `top_left.x` and
`bottom_right.y` unchanged; and after every resize step the centroid and the
cropped bounding box are recomputed from the new corners. -/
theorem c9_rectangle_resize (a : Rectangle) (delta : QPointF) :
    (( resize_annotation "bottom_right" a delta).bottom_right =
        ⟨a.bottom_right.x + delta.x, a.bottom_right.y + delta.y⟩ ∧
      ( resize_annotation "bottom_right" a delta).top_left = a.top_left) ∧
    (( resize_annotation "top_right" a delta).top_left =
        ⟨a.top_left.x, a.top_left.y + delta.y⟩ ∧
      ( resize_annotation "top_right" a delta).bottom_right =
        ⟨a.bottom_right.x + delta.x, a.bottom_right.y⟩) ∧
    (∀ handle : String,
      ( resize_annotation handle a delta).centroid =
        calculate_centroid ( resize_annotation handle a delta).top_left
          ( resize_annotation handle a delta).bottom_right ∧
      ( resize_annotation handle a delta).cropped_bbox =
        set_cropped_bbox ( resize_annotation handle a delta).top_left
          ( resize_annotation handle a delta).bottom_right) := by
  refine ⟨⟨?_, ?_⟩, ⟨?_, ?_⟩, ?_⟩
  · rfl
  · rfl
  · rfl
  · rfl
  · intro handle
    exact ⟨rfl, rfl⟩

/-! ## Image browser filtering (`QtImage.py`) -/

/-- Cold substring check on character lists (Python's `in` on strings). -/
def isPrefixList : List Char → List Char → Bool
  | [], _ => true
  | _ :: _, [] => false
  | a :: as, b :: bs => a == b && isPrefixList as bs

def containsSubList (needle : List Char) : List Char → Bool
  | [] => needle.isEmpty
  | b :: bs => isPrefixList needle (b :: bs) || containsSubList needle bs

def containsSubstring (haystack needle : String) : Bool :=
  containsSubList needle.toList haystack.toList

/-- `ImageWindow.filter_image`: returns the path when it passes the search
text and the three checkbox predicates, `none` otherwise.  `annotationsOf`
and `reviewOf` tell whether a path has (review) annotations, `basenameLower`
is the lowered basename of a path. -/
def filter_image (annotationsOf reviewOf : String → Bool)
    (basenameLower : String → String) (searchText : String)
    (hasAnn needsReview noAnn : Bool) (path : String) : Option String :=
  if !searchText.isEmpty && !containsSubstring (basenameLower path) searchText then
    none
  else if hasAnn && !annotationsOf path then none
  else if needsReview && !reviewOf path then none
  else if noAnn && annotationsOf path then none
  else some path

/-- What `filter_images` does to the current selection. -/
inductive SelectionEffect
  | unchanged
  | select (p : String)
  | cleared

/-- The observable result of one `ImageWindow.filter_images` run. -/
structure FilterResult where
  filtered_image_paths : List String
  selection : SelectionEffect
  sceneCleared : Bool
  usedThreadPool : Bool

/-- `ImageWindow.filter_images`: with no search text and no active checkbox
the filtered list becomes a copy of the full import-ordered list (no worker
threads).  Otherwise every path is filtered (the thread pool's completion
order is erased by the final `sort()`), and the first filtered path is
loaded, or the selection is cleared along with the canvas scene when nothing
matches. -/
def filter_images (annotationsOf reviewOf : String → Bool)
    (basenameLower : String → String) (searchText : String)
    (hasAnn needsReview noAnn : Bool) (image_paths : List String) :
    FilterResult :=
  if searchText.isEmpty && !hasAnn && !needsReview && !noAnn then
    ⟨image_paths, SelectionEffect.unchanged, false, false⟩
  else
    let sorted := (image_paths.filterMap
        (filter_image annotationsOf reviewOf basenameLower searchText
          hasAnn needsReview noAnn)).insertionSort (· ≤ ·)
    match sorted with
    | [] => ⟨[], SelectionEffect.cleared, true, true⟩
    | p :: rest => ⟨p :: rest, SelectionEffect.select p, false, true⟩

/-- C10: when a filter or search is active and some image matches, the
lexicographically smallest matching path is selected (whatever was selected
before); when none matches, the selection is cleared to none and the scene is
cleared; when nothing is active, the filtered view is the full import-ordered
list and no worker threads are spawned. -/
theorem c10_filter_images (annotationsOf reviewOf : String → Bool)
    (basenameLower : String → String) (searchText : String)
    (hasAnn needsReview noAnn : Bool) (image_paths : List String)
    (hActive : (searchText.isEmpty && !hasAnn && !needsReview && !noAnn) = false) :
    ((image_paths.filterMap (filter_image annotationsOf reviewOf basenameLower
        searchText hasAnn needsReview noAnn)) ≠ [] →
      ∃ p, (filter_images annotationsOf reviewOf basenameLower searchText
          hasAnn needsReview noAnn image_paths).selection = SelectionEffect.select p ∧
        p ∈ image_paths.filterMap (filter_image annotationsOf reviewOf
          basenameLower searchText hasAnn needsReview noAnn) ∧
        ∀ q ∈ image_paths.filterMap (filter_image annotationsOf reviewOf
          basenameLower searchText hasAnn needsReview noAnn), p ≤ q) ∧
    ((image_paths.filterMap (filter_image annotationsOf reviewOf basenameLower
        searchText hasAnn needsReview noAnn)) = [] →
      (filter_images annotationsOf reviewOf basenameLower searchText
          hasAnn needsReview noAnn image_paths).selection = SelectionEffect.cleared ∧
      (filter_images annotationsOf reviewOf basenameLower searchText
          hasAnn needsReview noAnn image_paths).sceneCleared = true) ∧
    (∀ annotationsOf2 reviewOf2 basenameLower2 (paths2 : List String),
      filter_images annotationsOf2 reviewOf2 basenameLower2 "" false false false
          paths2 =
        ⟨paths2, SelectionEffect.unchanged, false, false⟩) := by
  have hbranch : filter_images annotationsOf reviewOf basenameLower searchText
      hasAnn needsReview noAnn image_paths =
      (match (image_paths.filterMap
          (filter_image annotationsOf reviewOf basenameLower searchText
            hasAnn needsReview noAnn)).insertionSort (· ≤ ·) with
      | [] => (⟨[], SelectionEffect.cleared, true, true⟩ : FilterResult)
      | p :: rest => ⟨p :: rest, SelectionEffect.select p, false, true⟩) := by
    unfold filter_images
    rw [hActive]
    rfl
  refine ⟨?_, ?_, ?_⟩
  · intro hne
    rw [hbranch]
    have hperm := List.perm_insertionSort (· ≤ ·)
      (image_paths.filterMap (filter_image annotationsOf reviewOf basenameLower
        searchText hasAnn needsReview noAnn))
    have hsorted := List.sorted_insertionSort (· ≤ ·)
      (image_paths.filterMap (filter_image annotationsOf reviewOf basenameLower
        searchText hasAnn needsReview noAnn))
    cases hs : (image_paths.filterMap (filter_image annotationsOf reviewOf
        basenameLower searchText hasAnn needsReview noAnn)).insertionSort
          (· ≤ ·) with
    | nil =>
        exfalso
        rw [hs] at hperm
        exact hne (hperm.symm.eq_nil)
    | cons p rest =>
        refine ⟨p, rfl, ?_, ?_⟩
        · rw [hs] at hperm
          exact hperm.mem_iff.mp (List.mem_cons_self p rest)
        · intro q hq
          rw [hs] at hperm hsorted
          have hq2 : q ∈ p :: rest := hperm.mem_iff.mpr hq
          rcases List.mem_cons.mp hq2 with hq3 | hq3
          · exact le_of_eq hq3.symm
          · exact (List.sorted_cons.mp hsorted).1 q hq3
  · intro hnil
    rw [hbranch, hnil]
    exact ⟨rfl, rfl⟩
  · intro a2 r2 b2 paths2
    rfl

/-- Witness for C10: one active checkbox, two matching images out of import
order; the smaller path is chosen. -/
theorem c10_witness :
    ((["b.png", "a.png"].filterMap (filter_image (fun _ => true) (fun _ => true)
        (fun p => p) "" true false false)) ≠ [] →
      ∃ p, (filter_images (fun _ => true) (fun _ => true) (fun p => p) ""
          true false false ["b.png", "a.png"]).selection = SelectionEffect.select p ∧
        p ∈ (["b.png", "a.png"].filterMap (filter_image (fun _ => true)
          (fun _ => true) (fun p => p) "" true false false)) ∧
        ∀ q ∈ (["b.png", "a.png"].filterMap (filter_image (fun _ => true)
          (fun _ => true) (fun p => p) "" true false false)), p ≤ q) ∧
    ((["b.png", "a.png"].filterMap (filter_image (fun _ => true) (fun _ => true)
        (fun p => p) "" true false false)) = [] →
      (filter_images (fun _ => true) (fun _ => true) (fun p => p) ""
          true false false ["b.png", "a.png"]).selection = SelectionEffect.cleared ∧
      (filter_images (fun _ => true) (fun _ => true) (fun p => p) ""
          true false false ["b.png", "a.png"]).sceneCleared = true) ∧
    (∀ annotationsOf2 reviewOf2 basenameLower2 (paths2 : List String),
      filter_images annotationsOf2 reviewOf2 basenameLower2 "" false false false
          paths2 =
        ⟨paths2, SelectionEffect.unchanged, false, false⟩) :=
  c10_filter_images (fun _ => true) (fun _ => true) (fun p => p) ""
    true false false ["b.png", "a.png"] rfl

end CoralNet
